import Mathlib

/-!
# Deployment scripts of patient-record-blockchain

A shallow embedding of `scripts/deploy.js` and `scripts/deploy-simple.js`.

The scripts are straight-line asynchronous JavaScript: every call is awaited,
so an awaited call either resolves with a value, raises (a synchronous throw
or a rejected promise, which `await` inside `try` treats alike), or never
settles.  The objects handed back by the client library are inputs of the
model; their methods are described by what awaiting a call does, and a call
does not change the object it is made on.
-/

namespace Deploy

/-! ## JavaScript values -/

/-- JavaScript values the scripts handle.  A function value is described by
what awaiting a call of it does: `fnResolves v` completes normally with `v`,
`fnRaises e` raises `e`, `fnHangs` never settles.  Objects are property
lists; a property that is not listed reads as `undefined`. -/
inductive JSVal where
  | undefined : JSVal
  | null : JSVal
  | bool (b : Bool) : JSVal
  | num (n : Int) : JSVal
  | str (s : String) : JSVal
  | obj (props : List (String × JSVal)) : JSVal
  | fnResolves (v : JSVal) : JSVal
  | fnRaises (e : JSVal) : JSVal
  | fnHangs : JSVal

namespace JSVal

/-- First value listed under key `k`, `undefined` when there is none. -/
def lookup (k : String) : List (String × JSVal) → JSVal
  | [] => undefined
  | (key, v) :: rest => if key = k then v else lookup k rest

/-- Property read `v.k` on a value that is neither `null` nor `undefined`.
Only objects carry the properties the scripts read (`address`, `getAddress`,
`deployTransaction`, `hash`, `wait`, ...); on any other value they read as
`undefined`. -/
def prop : JSVal → String → JSVal
  | obj props, k => lookup k props
  | _, _ => undefined

/-- Reading a property of `null` or `undefined` is a TypeError. -/
def nullish : JSVal → Bool
  | undefined => true
  | null => true
  | _ => false

/-- JavaScript truthiness, the test made by the `||` operator. -/
def truthy : JSVal → Bool
  | undefined => false
  | null => false
  | bool b => b
  | num n => n != 0
  | str s => s != ""
  | _ => true

/-- The test `typeof v === "function"`. -/
def isFunction : JSVal → Bool
  | fnResolves _ => true
  | fnRaises _ => true
  | fnHangs => true
  | _ => false

/-- The TypeError raised when `what` cannot be read or called. -/
def typeError (what : String) : JSVal :=
  obj [("name", str "TypeError"), ("message", str what)]

end JSVal

open JSVal

/-! ## Effects: console output, method calls, exceptions, suspension -/

/-- Observable events of a run.  `log` and `error` carry the pieces of the
printed message in order (literal text and printed values); `call` records
that the method of that name was invoked. -/
inductive Event where
  | log (parts : List JSVal) : Event
  | error (parts : List JSVal) : Event
  | call (method : String) : Event

/-- How an asynchronous computation ends. -/
inductive Completion (α : Type) where
  | normal (v : α) : Completion α
  | throw (e : JSVal) : Completion α
  | hang : Completion α

/-- An asynchronous computation: the events it produced and how it ended. -/
structure Js (α : Type) where
  trace : List Event
  result : Completion α

namespace Js

/-- Normal completion with no event. -/
def ret {α : Type} (v : α) : Js α := ⟨[], .normal v⟩

/-- Raise `e`. -/
def raise {α : Type} (e : JSVal) : Js α := ⟨[], .throw e⟩

/-- Sequencing: the continuation runs only after a normal completion. -/
def andThen {α β : Type} (m : Js α) (f : α → Js β) : Js β :=
  match m.result with
  | .normal v => ⟨m.trace ++ (f v).trace, (f v).result⟩
  | .throw e => ⟨m.trace, .throw e⟩
  | .hang => ⟨m.trace, .hang⟩

/-- The statement `try { m } catch (e) { handler e }`. -/
def tryCatch {α : Type} (m : Js α) (handler : JSVal → Js α) : Js α :=
  match m.result with
  | .throw e => ⟨m.trace ++ (handler e).trace, (handler e).result⟩
  | _ => m

instance : Monad Js where
  pure := ret
  bind := andThen

end Js

open Js

/-- The call `console.log(...)`. -/
def consoleLog (parts : List JSVal) : Js Unit := ⟨[.log parts], .normal ()⟩

/-- The call `console.error(...)`. -/
def consoleError (parts : List JSVal) : Js Unit := ⟨[.error parts], .normal ()⟩

/-- Property read `v.k`. -/
def getProp (v : JSVal) (k : String) : Js JSVal :=
  if v.nullish then raise (typeError k) else ret (v.prop k)

/-- The expression `await recv.method()`. -/
def callMethod (recv : JSVal) (method : String) : Js JSVal :=
  andThen (getProp recv method) fun f =>
    match f with
    | .fnResolves v => ⟨[.call method], .normal v⟩
    | .fnRaises e => ⟨[.call method], .throw e⟩
    | .fnHangs => ⟨[.call method], .hang⟩
    | _ => raise (typeError method)

/-- Outcome of a script: the events, and the status passed to `process.exit`
(`none` when neither handler runs because `main()` never settles). -/
structure Run where
  trace : List Event
  exit : Option Nat

/-- The pattern `main().then(() => process.exit(0)).catch(e => { console.error(e);
process.exit(1) })`. -/
def runScript (m : Js Unit) : Run :=
  match m.result with
  | .normal _ => ⟨m.trace, some 0⟩
  | .throw e => ⟨m.trace ++ [.error [e]], some 1⟩
  | .hang => ⟨m.trace, none⟩

/-! ## scripts/deploy.js -/

/-- Lines 16 to 31 of `deploy.js`: the nested `try`/`catch` confirmation. -/
def confirm (contract : JSVal) : Js Unit :=
  tryCatch (do let _ ← callMethod contract "waitForDeployment"; pure ()) fun _error =>
    tryCatch (do let _ ← callMethod contract "deployed"; pure ()) fun _innerError =>
      tryCatch
        (do
          let deployTransaction ← getProp contract "deployTransaction"
          let _ ← callMethod deployTransaction "wait"
          pure ())
        fun finalError => consoleError [.str "Could not confirm deployment:", finalError]

/-- Line 34 of `deploy.js`:
`contract.address || (typeof contract.getAddress === "function" ? await contract.getAddress() : null)`. -/
def resolveAddress (contract : JSVal) : Js JSVal := do
  let direct ← getProp contract "address"
  if direct.truthy then pure direct
  else
    let getAddress ← getProp contract "getAddress"
    if getAddress.isFunction then callMethod contract "getAddress" else pure .null

/-- The function `main` of `deploy.js`; `hre` is the Hardhat runtime environment. -/
def main (hre : JSVal) : Js Unit := do
  consoleLog [.str "Deploying PatientRecordVerification contract..."]
  let ethers ← getProp hre "ethers"
  let PatientRecordVerification ← callMethod ethers "getContractFactory"
  consoleLog [.str "Sending deployment transaction..."]
  let contract ← callMethod PatientRecordVerification "deploy"
  consoleLog [.str "Waiting for deployment..."]
  confirm contract
  let address ← resolveAddress contract
  consoleLog [.str "PatientRecordVerification deployed to: ", address]
  consoleLog [.str "Deployment complete!"]

/-- The whole script `deploy.js`. -/
def deployScript (hre : JSVal) : Run := runScript (main hre)

/-! ## scripts/deploy-simple.js -/

/-- The function `main` of `deploy-simple.js`. -/
def mainSimple (hre : JSVal) : Js Unit := do
  consoleLog [.str "Deploying contract..."]
  let ethers ← getProp hre "ethers"
  let Factory ← callMethod ethers "getContractFactory"
  consoleLog [.str "Deploying..."]
  let contract ← callMethod Factory "deploy"
  let deployTransaction ← getProp contract "deployTransaction"
  let hash ← getProp deployTransaction "hash"
  consoleLog [.str "Contract deployed to transaction: ", hash]
  consoleLog [.str "Waiting for confirmation..."]
  let deployTransaction ← getProp contract "deployTransaction"
  let receipt ← callMethod deployTransaction "wait"
  let address ← getProp contract "address"
  consoleLog [.str "Contract deployed to: ", address]
  let blockNumber ← getProp receipt "blockNumber"
  consoleLog [.str "Deployment confirmed in block: ", blockNumber]

/-- The whole script `deploy-simple.js`. -/
def deploySimpleScript (hre : JSVal) : Run := runScript (mainSimple hre)

/-! ## Vocabulary of the properties -/

namespace JSVal

/-- Awaiting a call of this value completes normally. -/
def completes : JSVal → Bool
  | fnResolves _ => true
  | _ => false

/-- A call of this value fails at once: the value is not a function (the
capability is absent) or the call raises. -/
def fails : JSVal → Bool
  | fnResolves _ => false
  | fnHangs => false
  | _ => true

end JSVal

/-- The names of the methods invoked during a run, in order. -/
def calls : List Event → List String
  | [] => []
  | .call m :: rest => m :: calls rest
  | _ :: rest => calls rest

/-- Some `console.error` output was produced. -/
def failureLogged : List Event → Bool
  | [] => false
  | .error _ :: _ => true
  | _ :: rest => failureLogged rest

/-- What one rung of the cascade does, given the value `cap` found under the
method name `m`: it completes, hangs, or raises after invoking the method, or
raises without invoking anything when `cap` is not a function. -/
def rungSpec (cap : JSVal) (m : String) (r : Js Unit) : Prop :=
  (cap.completes = true ∧ r = ⟨[.call m], .normal ()⟩) ∨
    (cap = .fnHangs ∧ r = ⟨[.call m], .hang⟩) ∨
    (∃ e, cap = .fnRaises e ∧ r = ⟨[.call m], .throw e⟩) ∨
    (cap.isFunction = false ∧ ∃ e, r = ⟨[], .throw e⟩)

/-- The call event of a rung that raises: present only when `cap` is a function. -/
def attempted (cap : JSVal) (m : String) : List Event :=
  if cap.isFunction then [.call m] else []

/-- The run environment `hre` deploys the contract value `c`: the factory is
obtained and its `deploy()` resolves with `c`. -/
def deploysTo (hre c : JSVal) : Prop :=
  ∃ factory, (hre.prop "ethers").prop "getContractFactory" = .fnResolves factory ∧
    factory.prop "deploy" = .fnResolves c

/-- Events of `deploy.js` up to and including line 13, when `deploy()` resolves. -/
def submitted : List Event :=
  [.log [.str "Deploying PatientRecordVerification contract..."], .call "getContractFactory",
    .log [.str "Sending deployment transaction..."], .call "deploy",
    .log [.str "Waiting for deployment..."]]

/-- The two closing messages of `deploy.js` (lines 36 and 37) for address `a`. -/
def reported (a : JSVal) : List Event :=
  [.log [.str "PatientRecordVerification deployed to: ", a], .log [.str "Deployment complete!"]]

/-- Lines 15 to 37 of `deploy.js`: what `main` does with the contract value
that `deploy()` resolved with. -/
def confirmAndReport (contract : JSVal) : Js Unit := do
  confirm contract
  let address ← resolveAddress contract
  consoleLog [.str "PatientRecordVerification deployed to: ", address]
  consoleLog [.str "Deployment complete!"]

/-! ## Test objects -/

/-- A runtime environment whose factory has the given `deploy` method. -/
def hreWith (deploy : JSVal) : JSVal :=
  .obj [("ethers", .obj [("getContractFactory", .fnResolves (.obj [("deploy", deploy)]))])]

/-- A receipt mined in block 42 that carries the created address. -/
def receipt42 : JSVal :=
  .obj [("blockNumber", .num 42), ("address", .str "0xABC"), ("contractAddress", .str "0xABC")]

/-- Scenario A: newer client shape, `waitForDeployment` and `getAddress` work. -/
def contractA : JSVal :=
  .obj [("waitForDeployment", .fnResolves .undefined), ("getAddress", .fnResolves (.str "0xABC"))]

/-- Scenario B: `waitForDeployment` raises, `deployed` is absent, the receipt
wait resolves with block 42. -/
def contractB : JSVal :=
  .obj [("waitForDeployment", .fnRaises (.str "not supported")),
    ("deployTransaction", .obj [("hash", .str "0x7e57"), ("wait", .fnResolves receipt42)]),
    ("getAddress", .fnResolves (.str "0xABC"))]

/-- Older client shape: `address` field, `deployTransaction` with `hash` and `wait`. -/
def contractOlder : JSVal :=
  .obj [("address", .str "0xABC"),
    ("deployTransaction", .obj [("hash", .str "0x7e57"), ("wait", .fnResolves receipt42)])]

/-- Only `deployed` is exposed. -/
def contractLegacy : JSVal := .obj [("deployed", .fnResolves .undefined)]

/-- Only the receipt wait is exposed; the receipt carries the address. -/
def contractReceiptOnly : JSVal :=
  .obj [("deployTransaction", .obj [("hash", .str "0x7e57"), ("wait", .fnResolves receipt42)])]

/-- Confirmation works but neither `address` nor `getAddress` exists. -/
def contractNoAddress : JSVal := .obj [("waitForDeployment", .fnResolves .undefined)]

/-- No confirmation capability at all, but a direct address. -/
def contractAddressOnly : JSVal :=
  .obj [("address", .str "0xABC"), ("getAddress", .fnRaises (.str "unreachable"))]

/-- Scenario D: no confirmation capability, no address, `getAddress` raises. -/
def contractD : JSVal := .obj [("getAddress", .fnRaises (.str "network down"))]

/-! ## Basic facts about the effect layer -/

theorem bind_eq {α β : Type} (m : Js α) (f : α → Js β) : (m >>= f) = andThen m f := rfl

theorem pure_eq {α : Type} (v : α) : (pure v : Js α) = ret v := rfl

theorem andThen_normal {α β : Type} (t : List Event) (v : α) (f : α → Js β) :
    andThen ⟨t, .normal v⟩ f = ⟨t ++ (f v).trace, (f v).result⟩ := rfl

theorem andThen_throw {α β : Type} (t : List Event) (e : JSVal) (f : α → Js β) :
    andThen ⟨t, .throw e⟩ f = ⟨t, .throw e⟩ := rfl

theorem andThen_hang {α β : Type} (t : List Event) (f : α → Js β) :
    andThen ⟨t, .hang⟩ f = ⟨t, .hang⟩ := rfl

theorem tryCatch_normal {α : Type} (t : List Event) (v : α) (h : JSVal → Js α) :
    tryCatch ⟨t, .normal v⟩ h = ⟨t, .normal v⟩ := rfl

theorem tryCatch_throw {α : Type} (t : List Event) (e : JSVal) (h : JSVal → Js α) :
    tryCatch ⟨t, .throw e⟩ h = ⟨t ++ (h e).trace, (h e).result⟩ := rfl

theorem tryCatch_hang {α : Type} (t : List Event) (h : JSVal → Js α) :
    tryCatch ⟨t, (.hang : Completion α)⟩ h = ⟨t, .hang⟩ := rfl

theorem prop_nullish {v : JSVal} (h : v.nullish = true) (k : String) : v.prop k = .undefined := by
  cases v <;> simp_all [JSVal.nullish, JSVal.prop]

theorem not_nullish_of_isFunction {v : JSVal} {k : String} (h : (v.prop k).isFunction = true) :
    v.nullish = false := by
  cases hv : v.nullish
  · rfl
  · rw [prop_nullish hv] at h; simp [JSVal.isFunction] at h

theorem callMethod_resolves {recv : JSVal} {m : String} {v : JSVal}
    (h : recv.prop m = .fnResolves v) : callMethod recv m = ⟨[.call m], .normal v⟩ := by
  have hn : recv.nullish = false := @not_nullish_of_isFunction recv m (by rw [h]; rfl)
  simp [callMethod, getProp, hn, ret, andThen, h]

theorem callMethod_raises {recv : JSVal} {m : String} {e : JSVal}
    (h : recv.prop m = .fnRaises e) : callMethod recv m = ⟨[.call m], .throw e⟩ := by
  have hn : recv.nullish = false := @not_nullish_of_isFunction recv m (by rw [h]; rfl)
  simp [callMethod, getProp, hn, ret, andThen, h]

theorem callMethod_hangs {recv : JSVal} {m : String}
    (h : recv.prop m = .fnHangs) : callMethod recv m = ⟨[.call m], .hang⟩ := by
  have hn : recv.nullish = false := @not_nullish_of_isFunction recv m (by rw [h]; rfl)
  simp [callMethod, getProp, hn, ret, andThen, h]

theorem callMethod_notFunction {recv : JSVal} {m : String}
    (h : (recv.prop m).isFunction = false) : callMethod recv m = ⟨[], .throw (typeError m)⟩ := by
  cases hn : recv.nullish
  · cases hp : recv.prop m <;>
      simp_all [callMethod, getProp, ret, raise, andThen, JSVal.isFunction]
  · simp [callMethod, getProp, hn, raise, andThen]

/-! ## The confirmation cascade -/

theorem rung_spec (recv : JSVal) (m : String) :
    rungSpec (recv.prop m) m (andThen (callMethod recv m) (fun _ => ret ())) := by
  unfold rungSpec
  cases hp : recv.prop m with
  | fnResolves v => left; simp [callMethod_resolves hp, andThen, ret, JSVal.completes]
  | fnHangs => right; left; simp [callMethod_hangs hp, andThen]
  | fnRaises e => right; right; left; simp [callMethod_raises hp, andThen]
  | _ =>
    right; right; right
    simp [@callMethod_notFunction recv m (by rw [hp]; rfl), JSVal.isFunction, andThen]

theorem receiptRung_spec (c : JSVal) :
    rungSpec ((c.prop "deployTransaction").prop "wait") "wait"
      (andThen (getProp c "deployTransaction") fun deployTransaction =>
        andThen (callMethod deployTransaction "wait") (fun _ => ret ())) := by
  cases hn : c.nullish
  · have h := rung_spec (c.prop "deployTransaction") "wait"
    simpa [getProp, hn, ret, andThen] using h
  · right; right; right
    rw [prop_nullish hn]
    simp [JSVal.prop, JSVal.isFunction, getProp, hn, raise, andThen]

theorem confirm_unfold (c : JSVal) :
    confirm c =
      tryCatch (andThen (callMethod c "waitForDeployment") (fun _ => ret ())) fun _ =>
        tryCatch (andThen (callMethod c "deployed") (fun _ => ret ())) fun _ =>
          tryCatch
            (andThen (getProp c "deployTransaction") fun deployTransaction =>
              andThen (callMethod deployTransaction "wait") (fun _ => ret ()))
            fun finalError => consoleError [.str "Could not confirm deployment:", finalError] :=
  rfl

theorem cap_trichotomy (v : JSVal) :
    v.completes = true ∨ v = .fnHangs ∨ v.fails = true := by
  cases v <;> simp [JSVal.completes, JSVal.fails]

theorem rung_of_completes {cap : JSVal} {m : String} {r : Js Unit} (hs : rungSpec cap m r)
    (h : cap.completes = true) : r = ⟨[.call m], .normal ()⟩ := by
  rcases hs with ⟨_, hr⟩ | ⟨hc, _⟩ | ⟨e, hc, _⟩ | ⟨hc, _⟩
  · exact hr
  · rw [hc] at h; simp [JSVal.completes] at h
  · rw [hc] at h; simp [JSVal.completes] at h
  · cases cap <;> simp_all [JSVal.completes, JSVal.isFunction]

theorem rung_of_hangs {cap : JSVal} {m : String} {r : Js Unit} (hs : rungSpec cap m r)
    (h : cap = .fnHangs) : r = ⟨[.call m], .hang⟩ := by
  rcases hs with ⟨hc, _⟩ | ⟨_, hr⟩ | ⟨e, hc, _⟩ | ⟨hc, _⟩
  · rw [h] at hc; simp [JSVal.completes] at hc
  · exact hr
  · rw [h] at hc; simp at hc
  · rw [h] at hc; simp [JSVal.isFunction] at hc

theorem rung_of_fails {cap : JSVal} {m : String} {r : Js Unit} (hs : rungSpec cap m r)
    (h : cap.fails = true) : ∃ e, r = ⟨attempted cap m, .throw e⟩ := by
  rcases hs with ⟨hc, _⟩ | ⟨hc, _⟩ | ⟨e, hc, hr⟩ | ⟨hc, e, hr⟩
  · cases cap <;> simp_all [JSVal.completes, JSVal.fails]
  · rw [hc] at h; simp [JSVal.fails] at h
  · exact ⟨e, by simp [hr, hc, attempted, JSVal.isFunction]⟩
  · exact ⟨e, by simp [hr, hc, attempted]⟩

theorem confirm_first {c : JSVal} (h1 : (c.prop "waitForDeployment").completes = true) :
    confirm c = ⟨[.call "waitForDeployment"], .normal ()⟩ := by
  rw [confirm_unfold, rung_of_completes (rung_spec c "waitForDeployment") h1]
  rfl

theorem confirm_first_hangs {c : JSVal} (h1 : c.prop "waitForDeployment" = .fnHangs) :
    confirm c = ⟨[.call "waitForDeployment"], .hang⟩ := by
  rw [confirm_unfold, rung_of_hangs (rung_spec c "waitForDeployment") h1]
  rfl

theorem confirm_second {c : JSVal} (h1 : (c.prop "waitForDeployment").fails = true)
    (h2 : (c.prop "deployed").completes = true) :
    confirm c =
      ⟨attempted (c.prop "waitForDeployment") "waitForDeployment" ++ [.call "deployed"],
        .normal ()⟩ := by
  obtain ⟨e1, hr1⟩ := rung_of_fails (rung_spec c "waitForDeployment") h1
  rw [confirm_unfold, hr1, rung_of_completes (rung_spec c "deployed") h2]
  rfl

theorem confirm_second_hangs {c : JSVal} (h1 : (c.prop "waitForDeployment").fails = true)
    (h2 : c.prop "deployed" = .fnHangs) :
    confirm c =
      ⟨attempted (c.prop "waitForDeployment") "waitForDeployment" ++ [.call "deployed"],
        .hang⟩ := by
  obtain ⟨e1, hr1⟩ := rung_of_fails (rung_spec c "waitForDeployment") h1
  rw [confirm_unfold, hr1, rung_of_hangs (rung_spec c "deployed") h2]
  rfl

theorem confirm_third {c : JSVal} (h1 : (c.prop "waitForDeployment").fails = true)
    (h2 : (c.prop "deployed").fails = true)
    (h3 : ((c.prop "deployTransaction").prop "wait").completes = true) :
    confirm c =
      ⟨attempted (c.prop "waitForDeployment") "waitForDeployment" ++
          (attempted (c.prop "deployed") "deployed" ++ [.call "wait"]),
        .normal ()⟩ := by
  obtain ⟨e1, hr1⟩ := rung_of_fails (rung_spec c "waitForDeployment") h1
  obtain ⟨e2, hr2⟩ := rung_of_fails (rung_spec c "deployed") h2
  rw [confirm_unfold, hr1, hr2, rung_of_completes (receiptRung_spec c) h3]
  rfl

theorem confirm_third_hangs {c : JSVal} (h1 : (c.prop "waitForDeployment").fails = true)
    (h2 : (c.prop "deployed").fails = true)
    (h3 : (c.prop "deployTransaction").prop "wait" = .fnHangs) :
    confirm c =
      ⟨attempted (c.prop "waitForDeployment") "waitForDeployment" ++
          (attempted (c.prop "deployed") "deployed" ++ [.call "wait"]),
        .hang⟩ := by
  obtain ⟨e1, hr1⟩ := rung_of_fails (rung_spec c "waitForDeployment") h1
  obtain ⟨e2, hr2⟩ := rung_of_fails (rung_spec c "deployed") h2
  rw [confirm_unfold, hr1, hr2, rung_of_hangs (receiptRung_spec c) h3]
  rfl

theorem confirm_none {c : JSVal} (h1 : (c.prop "waitForDeployment").fails = true)
    (h2 : (c.prop "deployed").fails = true)
    (h3 : ((c.prop "deployTransaction").prop "wait").fails = true) :
    ∃ e, confirm c =
      ⟨attempted (c.prop "waitForDeployment") "waitForDeployment" ++
          (attempted (c.prop "deployed") "deployed" ++
            (attempted ((c.prop "deployTransaction").prop "wait") "wait" ++
              [.error [.str "Could not confirm deployment:", e]])),
        .normal ()⟩ := by
  obtain ⟨e1, hr1⟩ := rung_of_fails (rung_spec c "waitForDeployment") h1
  obtain ⟨e2, hr2⟩ := rung_of_fails (rung_spec c "deployed") h2
  obtain ⟨e3, hr3⟩ := rung_of_fails (receiptRung_spec c) h3
  refine ⟨e3, ?_⟩
  rw [confirm_unfold, hr1, hr2, hr3]
  rfl

theorem attempted_cases (cap : JSVal) (m : String) :
    attempted cap m = [] ∨ attempted cap m = [.call m] := by
  unfold attempted
  cases cap.isFunction <;> simp

theorem fails_of_not_function {v : JSVal} (h : v.isFunction = false) : v.fails = true := by
  cases v <;> simp_all [JSVal.fails, JSVal.isFunction]

theorem attempted_of_not_function {v : JSVal} (h : v.isFunction = false) (m : String) :
    attempted v m = [] := by
  simp [attempted, h]

theorem confirm_calls_sublist (c : JSVal) :
    (calls (confirm c).trace).Sublist ["waitForDeployment", "deployed", "wait"] := by
  rcases cap_trichotomy (c.prop "waitForDeployment") with h1 | h1 | h1
  · rw [confirm_first h1]; decide
  · rw [confirm_first_hangs h1]; decide
  · rcases attempted_cases (c.prop "waitForDeployment") "waitForDeployment" with a1 | a1 <;>
    rcases cap_trichotomy (c.prop "deployed") with h2 | h2 | h2
    all_goals first
      | (rw [confirm_second h1 h2, a1]; decide)
      | (rw [confirm_second_hangs h1 h2, a1]; decide)
      | skip
    all_goals
      rcases attempted_cases (c.prop "deployed") "deployed" with a2 | a2 <;>
      rcases cap_trichotomy ((c.prop "deployTransaction").prop "wait") with h3 | h3 | h3
    all_goals first
      | (rw [confirm_third h1 h2 h3, a1, a2]; decide)
      | (rw [confirm_third_hangs h1 h2 h3, a1, a2]; decide)
      | skip
    all_goals
      obtain ⟨e, he⟩ := confirm_none h1 h2 h3
      rcases attempted_cases ((c.prop "deployTransaction").prop "wait") "wait" with a3 | a3 <;>
      · rw [he, a1, a2, a3]
        simp only [List.nil_append, List.cons_append, calls]
        decide

/-- C1: in `deploy.js` the confirmation methods are invoked in the fixed order
`waitForDeployment`, `deployed`, `deployTransaction.wait`, each at most once
(the invoked names form a sublist of that list), and the cascade stops at the
first one that completes: when every higher-priority method is absent or
raises and the next one completes normally, that one is the last method
invoked, the step ends normally and no failure is logged. -/
theorem confirm_fixed_order_first_success (c : JSVal) :
    (calls (confirm c).trace).Sublist ["waitForDeployment", "deployed", "wait"] ∧
    ((c.prop "waitForDeployment").completes = true →
      calls (confirm c).trace = ["waitForDeployment"] ∧
        (confirm c).result = .normal () ∧ failureLogged (confirm c).trace = false) ∧
    ((c.prop "waitForDeployment").fails = true → (c.prop "deployed").completes = true →
      (calls (confirm c).trace).getLast? = some "deployed" ∧
        (confirm c).result = .normal () ∧ failureLogged (confirm c).trace = false) ∧
    ((c.prop "waitForDeployment").fails = true → (c.prop "deployed").fails = true →
      ((c.prop "deployTransaction").prop "wait").completes = true →
      (calls (confirm c).trace).getLast? = some "wait" ∧
        (confirm c).result = .normal () ∧ failureLogged (confirm c).trace = false) := by
  refine ⟨confirm_calls_sublist c, ?_, ?_, ?_⟩
  · intro h1
    rw [confirm_first h1]
    exact ⟨rfl, rfl, rfl⟩
  · intro h1 h2
    rw [confirm_second h1 h2]
    rcases attempted_cases (c.prop "waitForDeployment") "waitForDeployment" with a1 | a1 <;>
      rw [a1] <;> exact ⟨rfl, rfl, rfl⟩
  · intro h1 h2 h3
    rw [confirm_third h1 h2 h3]
    rcases attempted_cases (c.prop "waitForDeployment") "waitForDeployment" with a1 | a1 <;>
    rcases attempted_cases (c.prop "deployed") "deployed" with a2 | a2 <;>
      rw [a1, a2] <;> exact ⟨rfl, rfl, rfl⟩

/-- Witness of C1 on scenario B: `waitForDeployment` raises, `deployed` is
absent, the receipt wait resolves with block 42. -/
theorem confirm_fixed_order_first_success_witness :
    (calls (confirm contractB).trace).getLast? = some "wait" ∧
      (confirm contractB).result = .normal () ∧
      failureLogged (confirm contractB).trace = false :=
  (confirm_fixed_order_first_success contractB).2.2.2 rfl rfl rfl

/-- C2: in `deploy.js`, when exactly one of the three confirmation methods is
exposed (the other two are not functions) and it completes normally, the
confirmation step ends normally after invoking that method exactly once and
nothing else, and logs no failure. -/
theorem confirm_single_capability (c : JSVal) :
    ((c.prop "waitForDeployment").completes = true →
      (c.prop "deployed").isFunction = false →
      ((c.prop "deployTransaction").prop "wait").isFunction = false →
      confirm c = ⟨[.call "waitForDeployment"], .normal ()⟩) ∧
    ((c.prop "waitForDeployment").isFunction = false →
      (c.prop "deployed").completes = true →
      ((c.prop "deployTransaction").prop "wait").isFunction = false →
      confirm c = ⟨[.call "deployed"], .normal ()⟩) ∧
    ((c.prop "waitForDeployment").isFunction = false →
      (c.prop "deployed").isFunction = false →
      ((c.prop "deployTransaction").prop "wait").completes = true →
      confirm c = ⟨[.call "wait"], .normal ()⟩) := by
  refine ⟨fun h1 _ _ => confirm_first h1, fun h1 h2 _ => ?_, fun h1 h2 h3 => ?_⟩
  · rw [confirm_second (fails_of_not_function h1) h2, attempted_of_not_function h1]
    rfl
  · rw [confirm_third (fails_of_not_function h1) (fails_of_not_function h2) h3,
      attempted_of_not_function h1, attempted_of_not_function h2]
    rfl

/-- Witness of C2: a contract exposing only `deployed`. -/
theorem confirm_single_capability_witness :
    confirm contractLegacy = ⟨[.call "deployed"], .normal ()⟩ :=
  (confirm_single_capability contractLegacy).2.1 rfl rfl rfl

/-! ## Address resolution and the whole script -/

theorem resolveAddress_unfold (c : JSVal) :
    resolveAddress c =
      andThen (getProp c "address") fun direct =>
        if direct.truthy = true then ret direct
        else
          andThen (getProp c "getAddress") fun getAddress =>
            if getAddress.isFunction = true then callMethod c "getAddress" else ret .null :=
  rfl

theorem not_nullish_of_truthy {v : JSVal} {k : String} (h : (v.prop k).truthy = true) :
    v.nullish = false := by
  cases hv : v.nullish
  · rfl
  · rw [prop_nullish hv] at h; simp [JSVal.truthy] at h

theorem resolve_direct {c : JSVal} (h : (c.prop "address").truthy = true) :
    resolveAddress c = ⟨[], .normal (c.prop "address")⟩ := by
  simp [resolveAddress_unfold, getProp, not_nullish_of_truthy h, ret, andThen, h]

theorem resolve_accessor {c a : JSVal} (h : (c.prop "address").truthy = false)
    (hg : c.prop "getAddress" = .fnResolves a) :
    resolveAddress c = ⟨[.call "getAddress"], .normal a⟩ := by
  have hn : c.nullish = false := @not_nullish_of_isFunction c "getAddress" (by rw [hg]; rfl)
  simp [resolveAddress_unfold, getProp, hn, ret, andThen, h, callMethod_resolves hg, hg,
    JSVal.isFunction]

theorem resolve_accessor_raises {c e : JSVal} (h : (c.prop "address").truthy = false)
    (hg : c.prop "getAddress" = .fnRaises e) :
    resolveAddress c = ⟨[.call "getAddress"], .throw e⟩ := by
  have hn : c.nullish = false := @not_nullish_of_isFunction c "getAddress" (by rw [hg]; rfl)
  simp [resolveAddress_unfold, getProp, hn, ret, andThen, h, callMethod_raises hg, hg,
    JSVal.isFunction]

theorem resolve_accessor_hangs {c : JSVal} (h : (c.prop "address").truthy = false)
    (hg : c.prop "getAddress" = .fnHangs) :
    resolveAddress c = ⟨[.call "getAddress"], .hang⟩ := by
  have hn : c.nullish = false := @not_nullish_of_isFunction c "getAddress" (by rw [hg]; rfl)
  simp [resolveAddress_unfold, getProp, hn, ret, andThen, h, callMethod_hangs hg, hg,
    JSVal.isFunction]

theorem resolve_null {c : JSVal} (hn : c.nullish = false)
    (h : (c.prop "address").truthy = false) (hg : (c.prop "getAddress").isFunction = false) :
    resolveAddress c = ⟨[], .normal .null⟩ := by
  simp [resolveAddress_unfold, getProp, hn, ret, andThen, h, hg]

theorem resolve_nullish {c : JSVal} (hn : c.nullish = true) :
    resolveAddress c = ⟨[], .throw (typeError "address")⟩ := by
  simp [resolveAddress_unfold, getProp, hn, raise, andThen]

theorem main_of_deploysTo {hre c : JSVal} (h : deploysTo hre c) :
    main hre = ⟨submitted ++ (confirmAndReport c).trace, (confirmAndReport c).result⟩ := by
  obtain ⟨factory, hf, hd⟩ := h
  have he : (hre.prop "ethers").nullish = false :=
    @not_nullish_of_isFunction (hre.prop "ethers") "getContractFactory" (by rw [hf]; rfl)
  have hh : hre.nullish = false := by
    cases hv : hre.nullish
    · rfl
    · rw [prop_nullish hv] at he; simp [JSVal.nullish] at he
  show (andThen (consoleLog _) fun _ => andThen (getProp hre "ethers") fun ethers =>
    andThen (callMethod ethers "getContractFactory") fun factory =>
      andThen (consoleLog _) fun _ => andThen (callMethod factory "deploy") fun contract =>
        andThen (consoleLog _) fun _ => confirmAndReport contract) = _
  simp [getProp, hh, ret, andThen, consoleLog, callMethod_resolves hf, callMethod_resolves hd,
    submitted]

theorem confirmAndReport_unfold (c : JSVal) :
    confirmAndReport c =
      andThen (confirm c) fun _ => andThen (resolveAddress c) fun address =>
        ⟨reported address, .normal ()⟩ :=
  rfl

theorem script_succeeds {hre c : JSVal} (h : deploysTo hre c) {t1 t2 : List Event} {a : JSVal}
    (hc : confirm c = ⟨t1, .normal ()⟩) (hr : resolveAddress c = ⟨t2, .normal a⟩) :
    deployScript hre = ⟨submitted ++ (t1 ++ (t2 ++ reported a)), some 0⟩ := by
  simp [deployScript, runScript, main_of_deploysTo h, confirmAndReport_unfold, hc, hr, andThen]

theorem script_fails {hre c : JSVal} (h : deploysTo hre c) {t1 t2 : List Event} {e : JSVal}
    (hc : confirm c = ⟨t1, .normal ()⟩) (hr : resolveAddress c = ⟨t2, .throw e⟩) :
    deployScript hre = ⟨submitted ++ (t1 ++ (t2 ++ [.error [e]])), some 1⟩ := by
  simp [deployScript, runScript, main_of_deploysTo h, confirmAndReport_unfold, hc, hr, andThen]

theorem script_hangs_confirming {hre c : JSVal} (h : deploysTo hre c) {t1 : List Event}
    (hc : confirm c = ⟨t1, .hang⟩) :
    deployScript hre = ⟨submitted ++ t1, none⟩ := by
  simp [deployScript, runScript, main_of_deploysTo h, confirmAndReport_unfold, hc, andThen]

theorem script_hangs_resolving {hre c : JSVal} (h : deploysTo hre c) {t1 t2 : List Event}
    (hc : confirm c = ⟨t1, .normal ()⟩) (hr : resolveAddress c = ⟨t2, .hang⟩) :
    deployScript hre = ⟨submitted ++ (t1 ++ t2), none⟩ := by
  simp [deployScript, runScript, main_of_deploysTo h, confirmAndReport_unfold, hc, hr, andThen]

theorem deploysTo_hreWith (c : JSVal) : deploysTo (hreWith (.fnResolves c)) c :=
  ⟨.obj [("deploy", .fnResolves c)], rfl, rfl⟩

theorem confirm_settles_or_hangs (c : JSVal) :
    ∃ t, confirm c = ⟨t, .normal ()⟩ ∨ confirm c = ⟨t, .hang⟩ := by
  rcases cap_trichotomy (c.prop "waitForDeployment") with h1 | h1 | h1
  · exact ⟨_, Or.inl (confirm_first h1)⟩
  · exact ⟨_, Or.inr (confirm_first_hangs h1)⟩
  · rcases cap_trichotomy (c.prop "deployed") with h2 | h2 | h2
    · exact ⟨_, Or.inl (confirm_second h1 h2)⟩
    · exact ⟨_, Or.inr (confirm_second_hangs h1 h2)⟩
    · rcases cap_trichotomy ((c.prop "deployTransaction").prop "wait") with h3 | h3 | h3
      · exact ⟨_, Or.inl (confirm_third h1 h2 h3)⟩
      · exact ⟨_, Or.inr (confirm_third_hangs h1 h2 h3)⟩
      · obtain ⟨e, he⟩ := confirm_none h1 h2 h3
        exact ⟨_, Or.inl he⟩

theorem failureLogged_attempted (cap : JSVal) (m : String) (rest : List Event) :
    failureLogged (attempted cap m ++ rest) = failureLogged rest := by
  rcases attempted_cases cap m with a | a <;> rw [a] <;> rfl

/-- C3: in `deploy.js`, when no confirmation strategy succeeds (each of the
three methods is absent or raises), the confirmation step ends normally with
the failure logged, address resolution still runs right after it, and if the
address resolves to `a` the script reports `a` and exits with status 0. -/
theorem unconfirmed_is_swallowed (hre c : JSVal) (hd : deploysTo hre c)
    (h1 : (c.prop "waitForDeployment").fails = true) (h2 : (c.prop "deployed").fails = true)
    (h3 : ((c.prop "deployTransaction").prop "wait").fails = true) :
    (confirm c).result = .normal () ∧ failureLogged (confirm c).trace = true ∧
    (∃ rest, (deployScript hre).trace =
      submitted ++ ((confirm c).trace ++ ((resolveAddress c).trace ++ rest))) ∧
    (∀ t a, resolveAddress c = ⟨t, .normal a⟩ →
      deployScript hre = ⟨submitted ++ ((confirm c).trace ++ (t ++ reported a)), some 0⟩) := by
  obtain ⟨e, he⟩ := confirm_none h1 h2 h3
  refine ⟨by rw [he], ?_, ?_, ?_⟩
  · rw [he]
    simp only [failureLogged_attempted]
    rfl
  · cases hr : resolveAddress c with
    | mk t r =>
      cases r with
      | normal a => exact ⟨reported a, by rw [script_succeeds hd he hr, he]⟩
      | throw x => exact ⟨[.error [x]], by rw [script_fails hd he hr, he]⟩
      | hang => exact ⟨[], by rw [script_hangs_resolving hd he hr, he]; simp⟩
  · intro t a hr
    rw [script_succeeds hd he hr, he]

/-- Witness of C3: no confirmation method at all, a direct address. -/
theorem unconfirmed_is_swallowed_witness :
    deployScript (hreWith (.fnResolves contractAddressOnly)) =
      ⟨submitted ++ ((confirm contractAddressOnly).trace ++ ([] ++ reported (.str "0xABC"))),
        some 0⟩ :=
  (unconfirmed_is_swallowed (hreWith (.fnResolves contractAddressOnly)) contractAddressOnly
    (deploysTo_hreWith contractAddressOnly) rfl rfl rfl).2.2.2 [] (.str "0xABC") rfl

theorem truthy_str (s : String) : (JSVal.str s).truthy = true ↔ s ≠ "" := by
  simp [JSVal.truthy]

theorem truthy_of_empty {v : JSVal} (h : v = .undefined ∨ v = .null ∨ v = .str "") :
    v.truthy = false := by
  rcases h with h | h | h <;> rw [h] <;> rfl

/-- C4, counterexample: a contract whose confirmation works but which has
neither an `address` field nor a `getAddress` method; the script reports the
address `null` and exits with status 0. -/
theorem null_address_exits_zero :
    contractNoAddress.prop "address" = .undefined ∧
      (contractNoAddress.prop "getAddress").isFunction = false ∧
      deployScript (hreWith (.fnResolves contractNoAddress)) =
        ⟨submitted ++ ([.call "waitForDeployment"] ++ reported .null), some 0⟩ :=
  ⟨rfl, rfl, rfl⟩

/-- C4, amended: every normal completion (exit status 0) of `deploy.js` ends by
reporting an address `a` that is the truthy `address` field, or else the value
`getAddress` resolved with, or else `null` when `getAddress` is not a
function; and in that last case the script does exit with status 0 once the
confirmation step has ended, so an unresolved address is reported as `null`
rather than turned into a failure. -/
theorem normal_completion_reports (hre c : JSVal) (hd : deploysTo hre c) :
    ((deployScript hre).exit = some 0 →
      ∃ t a, (deployScript hre).trace = t ++ reported a ∧
        (((c.prop "address").truthy = true ∧ a = c.prop "address") ∨
          ((c.prop "address").truthy = false ∧ c.prop "getAddress" = .fnResolves a) ∨
          ((c.prop "address").truthy = false ∧ (c.prop "getAddress").isFunction = false ∧
            a = .null))) ∧
    (c.nullish = false → (c.prop "address").truthy = false →
      (c.prop "getAddress").isFunction = false → (confirm c).result = .normal () →
      deployScript hre = ⟨submitted ++ ((confirm c).trace ++ reported .null), some 0⟩) := by
  constructor
  · intro h0
    obtain ⟨t1, hc | hc⟩ := confirm_settles_or_hangs c
    swap
    · rw [script_hangs_confirming hd hc] at h0; simp at h0
    cases hn : c.nullish
    swap
    · rw [script_fails hd hc (resolve_nullish hn)] at h0; simp at h0
    cases ht : (c.prop "address").truthy
    swap
    · refine ⟨submitted ++ t1, c.prop "address", ?_, Or.inl ⟨rfl, rfl⟩⟩
      rw [script_succeeds hd hc (resolve_direct ht)]; simp
    cases hg : c.prop "getAddress" with
    | fnResolves a =>
      refine ⟨submitted ++ (t1 ++ [.call "getAddress"]), a, ?_, Or.inr (Or.inl ⟨rfl, rfl⟩)⟩
      rw [script_succeeds hd hc (resolve_accessor ht hg)]; simp
    | fnRaises e => rw [script_fails hd hc (resolve_accessor_raises ht hg)] at h0; simp at h0
    | fnHangs => rw [script_hangs_resolving hd hc (resolve_accessor_hangs ht hg)] at h0; simp at h0
    | _ =>
      refine ⟨submitted ++ t1, .null, ?_, Or.inr (Or.inr ⟨rfl, rfl, rfl⟩)⟩
      rw [script_succeeds hd hc (resolve_null hn ht (by rw [hg]; rfl))]; simp
  · intro hn ht hg hres
    obtain ⟨t1, hc | hc⟩ := confirm_settles_or_hangs c
    · rw [script_succeeds hd hc (resolve_null hn ht hg), hc]; simp
    · rw [hc] at hres; simp at hres

/-- Witness of the amended C4 on the contract without any address. -/
theorem normal_completion_reports_witness :
    deployScript (hreWith (.fnResolves contractNoAddress)) =
      ⟨submitted ++ ((confirm contractNoAddress).trace ++ reported .null), some 0⟩ :=
  (normal_completion_reports (hreWith (.fnResolves contractNoAddress)) contractNoAddress
    (deploysTo_hreWith contractNoAddress)).2 rfl rfl rfl rfl

theorem calls_append (l1 l2 : List Event) : calls (l1 ++ l2) = calls l1 ++ calls l2 := by
  induction l1 with
  | nil => rfl
  | cons ev rest ih => cases ev <;> simp [calls, ih]

theorem calls_reported (a : JSVal) : calls (reported a) = [] := rfl

theorem getAddress_not_in_confirm (c : JSVal) : "getAddress" ∉ calls (confirm c).trace := by
  intro h
  have hs := (confirm_calls_sublist c).subset h
  revert hs
  decide

/-- C5: in `deploy.js`, when the direct `address` field is non-empty (truthy,
which for a string means not the empty string), the resolved address is that
field and `getAddress` is not invoked, neither by the address expression nor
anywhere in a run of the script, whatever `getAddress` is. -/
theorem direct_address_preferred (c : JSVal) (h : (c.prop "address").truthy = true) :
    resolveAddress c = ⟨[], .normal (c.prop "address")⟩ ∧
    ∀ hre, deploysTo hre c → "getAddress" ∉ calls (deployScript hre).trace := by
  refine ⟨resolve_direct h, fun hre hd => ?_⟩
  obtain ⟨t1, hc | hc⟩ := confirm_settles_or_hangs c
  · have hg := getAddress_not_in_confirm c
    rw [hc] at hg
    rw [script_succeeds hd hc (resolve_direct h)]
    simp only [calls_append, calls_reported, List.mem_append, not_or]
    exact ⟨by decide, hg, by simp [calls], by simp⟩
  · have hg := getAddress_not_in_confirm c
    rw [hc] at hg
    rw [script_hangs_confirming hd hc]
    simp only [calls_append, List.mem_append, not_or]
    exact ⟨by decide, hg⟩

/-- Witness of C5: a direct address next to a `getAddress` that would raise. -/
theorem direct_address_preferred_witness :
    resolveAddress contractAddressOnly = ⟨[], .normal (.str "0xABC")⟩ ∧
      "getAddress" ∉ calls (deployScript (hreWith (.fnResolves contractAddressOnly))).trace :=
  ⟨(direct_address_preferred contractAddressOnly rfl).1,
    (direct_address_preferred contractAddressOnly rfl).2 _
      (deploysTo_hreWith contractAddressOnly)⟩

/-- C6: in `deploy.js`, when the direct `address` field is empty (absent, `null`
or the empty string) and `getAddress` is a function completing normally with
`a`, the resolved address is `a`; and when moreover `waitForDeployment`
completes normally (scenario A) the script reports `a` and exits with 0. -/
theorem accessor_address_used (c a : JSVal)
    (he : c.prop "address" = .undefined ∨ c.prop "address" = .null ∨ c.prop "address" = .str "")
    (hg : c.prop "getAddress" = .fnResolves a) :
    resolveAddress c = ⟨[.call "getAddress"], .normal a⟩ ∧
    ∀ hre, deploysTo hre c → (c.prop "waitForDeployment").completes = true →
      deployScript hre =
        ⟨submitted ++ ([.call "waitForDeployment"] ++ ([.call "getAddress"] ++ reported a)),
          some 0⟩ :=
  ⟨resolve_accessor (truthy_of_empty he) hg, fun _ hd h1 =>
    script_succeeds hd (confirm_first h1) (resolve_accessor (truthy_of_empty he) hg)⟩

/-- Witness of C6: scenario A, the accessor returns `0xABC`. -/
theorem accessor_address_used_witness :
    deployScript (hreWith (.fnResolves contractA)) =
      ⟨submitted ++ ([.call "waitForDeployment"] ++
        ([.call "getAddress"] ++ reported (.str "0xABC"))), some 0⟩ :=
  (accessor_address_used contractA (.str "0xABC") (Or.inl rfl) rfl).2 _
    (deploysTo_hreWith contractA) rfl

/-- C7, counterexample: the only confirmation is the receipt returned by
`deployTransaction.wait()`, which carries the address `0xABC`; the address
field is empty and there is no `getAddress`; the resolved address is `null`,
not the address carried by the receipt. -/
theorem receipt_address_not_used :
    (contractReceiptOnly.prop "address").truthy = false ∧
      (contractReceiptOnly.prop "getAddress").isFunction = false ∧
      confirm contractReceiptOnly = ⟨[.call "wait"], .normal ()⟩ ∧
      callMethod (contractReceiptOnly.prop "deployTransaction") "wait" =
        ⟨[.call "wait"], .normal receipt42⟩ ∧
      receipt42.prop "address" = .str "0xABC" ∧
      resolveAddress contractReceiptOnly = ⟨[], .normal .null⟩ ∧
      (resolveAddress contractReceiptOnly).result ≠ .normal (.str "0xABC") :=
  ⟨rfl, rfl, rfl, rfl, rfl, rfl, by
    show Completion.normal JSVal.null ≠ Completion.normal (JSVal.str "0xABC")
    simp⟩

/-- C7, amended: for a contract object with an empty (falsy) `address` field and
no `getAddress` function, the resolved address is `null` and nothing is
invoked: the receipt of `deployTransaction.wait()` is not consulted. -/
theorem receipt_address_ignored (c : JSVal) (hn : c.nullish = false)
    (h : (c.prop "address").truthy = false) (hg : (c.prop "getAddress").isFunction = false) :
    resolveAddress c = ⟨[], .normal .null⟩ :=
  resolve_null hn h hg

/-- Witness of the amended C7 on the receipt-only contract. -/
theorem receipt_address_ignored_witness :
    resolveAddress contractReceiptOnly = ⟨[], .normal .null⟩ :=
  receipt_address_ignored contractReceiptOnly rfl rfl rfl

/-- C8: in `deploy.js`, when the factory is obtained and its `deploy()` raises
`e`, the script logs `e` and exits with status 1; the run consists of the two
opening messages, the two calls and the error only, so no confirmation method
and no address accessor is invoked and no address is reported. -/
theorem submission_failure_aborts (hre factory e : JSVal)
    (hf : (hre.prop "ethers").prop "getContractFactory" = .fnResolves factory)
    (hd : factory.prop "deploy" = .fnRaises e) :
    deployScript hre =
      ⟨[.log [.str "Deploying PatientRecordVerification contract..."],
          .call "getContractFactory", .log [.str "Sending deployment transaction..."],
          .call "deploy", .error [e]], some 1⟩ := by
  have he : (hre.prop "ethers").nullish = false :=
    @not_nullish_of_isFunction (hre.prop "ethers") "getContractFactory" (by rw [hf]; rfl)
  have hh : hre.nullish = false := by
    cases hv : hre.nullish
    · rfl
    · rw [prop_nullish hv] at he; simp [JSVal.nullish] at he
  show runScript (andThen (consoleLog _) fun _ => andThen (getProp hre "ethers") fun ethers =>
    andThen (callMethod ethers "getContractFactory") fun factory =>
      andThen (consoleLog _) fun _ => andThen (callMethod factory "deploy") fun contract =>
        andThen (consoleLog _) fun _ => confirmAndReport contract) = _
  simp [getProp, hh, ret, andThen, consoleLog, callMethod_resolves hf, callMethod_raises hd,
    runScript]

/-- Witness of C8: `deploy()` raises for insufficient funds. -/
theorem submission_failure_aborts_witness :
    deployScript (hreWith (.fnRaises (.str "insufficient funds"))) =
      ⟨[.log [.str "Deploying PatientRecordVerification contract..."],
          .call "getContractFactory", .log [.str "Sending deployment transaction..."],
          .call "deploy", .error [.str "insufficient funds"]], some 1⟩ :=
  submission_failure_aborts _ (.obj [("deploy", .fnRaises (.str "insufficient funds"))])
    (.str "insufficient funds") rfl rfl

theorem confirm_unavailable {c : JSVal} (hn : c.nullish = false)
    (h1 : (c.prop "waitForDeployment").isFunction = false)
    (h2 : (c.prop "deployed").isFunction = false)
    (h3 : ((c.prop "deployTransaction").prop "wait").isFunction = false) :
    confirm c =
      ⟨[.error [.str "Could not confirm deployment:", typeError "wait"]], .normal ()⟩ := by
  rw [confirm_unfold, callMethod_notFunction h1, callMethod_notFunction h2]
  simp [getProp, hn, ret, andThen, Js.tryCatch, callMethod_notFunction h3, consoleError]

/-- C9: in `deploy.js`, when no confirmation method is available, the direct
`address` field is empty and `getAddress` raises `e`, the script does not
complete normally: it logs the confirmation failure, invokes `getAddress`,
logs `e` and exits with status 1, reporting no address. -/
theorem unresolved_address_exits_one (hre c e : JSVal) (hd : deploysTo hre c)
    (h1 : (c.prop "waitForDeployment").isFunction = false)
    (h2 : (c.prop "deployed").isFunction = false)
    (h3 : ((c.prop "deployTransaction").prop "wait").isFunction = false)
    (he : c.prop "address" = .undefined ∨ c.prop "address" = .null ∨ c.prop "address" = .str "")
    (hg : c.prop "getAddress" = .fnRaises e) :
    deployScript hre =
      ⟨submitted ++ [.error [.str "Could not confirm deployment:", typeError "wait"],
        .call "getAddress", .error [e]], some 1⟩ := by
  have hn : c.nullish = false := @not_nullish_of_isFunction c "getAddress" (by rw [hg]; rfl)
  rw [script_fails hd (confirm_unavailable hn h1 h2 h3)
    (resolve_accessor_raises (truthy_of_empty he) hg)]
  rfl

/-- Witness of C9: scenario D. -/
theorem unresolved_address_exits_one_witness :
    deployScript (hreWith (.fnResolves contractD)) =
      ⟨submitted ++ [.error [.str "Could not confirm deployment:", typeError "wait"],
        .call "getAddress", .error [.str "network down"]], some 1⟩ :=
  unresolved_address_exits_one _ contractD (.str "network down") (deploysTo_hreWith contractD)
    rfl rfl rfl (Or.inl rfl) rfl

/-- C10, the failing run: on the newer client shape (`waitForDeployment` and
`getAddress`, no `deployTransaction`, no `address`) `deploy-simple.js` raises
a TypeError at line 13 while reading `contract.deployTransaction.hash` and
exits with status 1, reporting neither an address nor a block number. -/
theorem simple_script_fails_on_newer_shape :
    deploySimpleScript (hreWith (.fnResolves contractA)) =
      ⟨[.log [.str "Deploying contract..."], .call "getContractFactory",
          .log [.str "Deploying..."], .call "deploy", .error [typeError "hash"]], some 1⟩ :=
  rfl

/-- On the older client shape `deploy-simple.js` reports the address and the
block number and exits with status 0. -/
theorem simple_script_on_older_shape :
    deploySimpleScript (hreWith (.fnResolves contractOlder)) =
      ⟨[.log [.str "Deploying contract..."], .call "getContractFactory",
          .log [.str "Deploying..."], .call "deploy",
          .log [.str "Contract deployed to transaction: ", .str "0x7e57"],
          .log [.str "Waiting for confirmation..."], .call "wait",
          .log [.str "Contract deployed to: ", .str "0xABC"],
          .log [.str "Deployment confirmed in block: ", .num 42]], some 0⟩ :=
  rfl

/-- The same newer-shape contract is deployed successfully by `deploy.js`. -/
theorem newer_shape_succeeds_in_deploy :
    deployScript (hreWith (.fnResolves contractA)) =
      ⟨submitted ++ [.call "waitForDeployment", .call "getAddress"] ++
        reported (.str "0xABC"), some 0⟩ :=
  rfl

end Deploy
